import Mathlib

/-!
Shallow embedding of the group-call signalling core of hydrogen-web:
the `Member` class (src/matrix/calls/group/Member.ts) and the
`GroupCall` class, together with theorems checking the specification's
claims about them.

External collaborators (PeerCall internals, the event-type and
error-code enums, LocalMedia, the homeserver transport) are not part of
the provided sources; they are modelled abstractly, from the spec, as
far as the claims need them.  Effects on those collaborators (calling,
answering, disposing, sending) are recorded as explicit action lists so
that theorems can speak about which operations were invoked and in
which order.
-/

/-- Modelled from the spec: local media handles are opaque; we model a
media object by a numeric identity so that disposal of a concrete
object can be observed. -/
abbrev Media := Nat

/-- Lexicographic comparison of character lists by code point, the
semantics of the JavaScript `<`/`>` operators on strings as used in
`Member.connect`. -/
def strLtB : List Char → List Char → Bool
  | _, [] => false
  | [], _ :: _ => true
  | a :: as, b :: bs =>
    if a.toNat < b.toNat then true
    else if a.toNat = b.toNat then strLtB as bs else false

/-- JavaScript string `<`. -/
def strLt (a b : String) : Bool := strLtB a.data b.data

/-- Modelled from the spec: the PeerCall lifecycle states
(`PeerCall.ts` is not among the provided sources). -/
inductive CallState where
  | fledgling
  | createOffer
  | inviteSent
  | createAnswer
  | ringing
  | connecting
  | connected
  | ended
deriving DecidableEq, Repr

/-- Modelled from the spec: hangup reason codes (`CallErrorCode` lives
in callEventTypes, not among the provided sources).  The first six are
the ones named by `errorCodesWithoutRetry` in Member.ts; the rest are
representative retryable codes named by the spec. -/
inductive CallErrorCode where
  | userHangup
  | answeredElsewhere
  | replaced
  | userBusy
  | transfered
  | newSession
  | iceFailed
  | inviteTimeout
  | unknownError
deriving DecidableEq, Repr

/-- Modelled from the spec: the to-device signalling message types
(`EventType` lives in callEventTypes, not among the provided sources). -/
inductive MsgType where
  | invite
  | answer
  | candidates
  | hangup
  | reject
  | negotiate
  | sdpStreamMetadataChanged
deriving DecidableEq, Repr

/-- The fields of a signalling message that the claims depend on.
`mid` models JavaScript object identity (two distinct message objects
with equal payloads are distinguished by `mid`). -/
structure SignallingMessage where
  mtype : MsgType
  callId : String
  senderSessionId : String
  destSessionId : String
  mid : Nat
deriving DecidableEq, Repr

/-- One entry of an `m.devices` list (`CallDeviceMembership`). -/
structure DeviceEntry where
  deviceIdD : String
  sessionIdD : String
deriving DecidableEq, Repr

/-- The per-member options from Member.ts (`confId`, `ownUserId`,
`ownDeviceId`, `sessionId`). -/
structure MemberOptions where
  confId : String
  ownUserId : String
  ownDeviceId : String
  ownSessionId : String
deriving DecidableEq, Repr

/-- Modelled from the spec: the externally visible state of a PeerCall
(callId, lifecycle state, hangup reason); its internal negotiation
machinery is outside the provided sources. -/
structure PeerCallState where
  callId : String
  pcState : CallState
  hangupReason : Option CallErrorCode
deriving DecidableEq, Repr

/-- The mutable fields of the Member class from Member.ts:
`member.userId`, `callDeviceMembership`, `peerCall`, `localMedia`,
`retryCount`, plus the readonly options. -/
structure MemberState where
  userId : String
  callDeviceMembership : DeviceEntry
  mopts : MemberOptions
  peerCall : Option PeerCallState
  localMedia : Option Media
  retryCount : Nat
deriving DecidableEq, Repr

/-- `get deviceId()` of Member.ts: `callDeviceMembership.device_id`. -/
def MemberState.deviceIdM (m : MemberState) : String :=
  m.callDeviceMembership.deviceIdD

/-- `callDeviceMembership.session_id` (called `sessionId` on the
GroupCall side). -/
def MemberState.sessionIdM (m : MemberState) : String :=
  m.callDeviceMembership.sessionIdD

/-- Observable effects of Member operations on the external
collaborators (the PeerCall engine and media objects). -/
inductive MAction where
  | connectInvoked
  | peerCalledOut (callId : String) (media : Option Media)
  | peerAnswered (media : Option Media)
  | peerHungUp (code : CallErrorCode)
  | peerClosed
  | peerDisposed
  | mediaDisposed (m : Media)
  | peerSetMedia (m : Media)
  | peerHandledMessage (msg : SignallingMessage)
deriving DecidableEq, Repr

/-- `errorCodesWithoutRetry` from Member.ts. -/
def errorCodesWithoutRetry : List CallErrorCode :=
  [.userHangup, .answeredElsewhere, .replaced, .userBusy, .transfered, .newSession]

/-- The initiator decision inside `Member.connect`:
`this.member.userId === ownUserId ? this.deviceId > ownDeviceId
                                  : this.member.userId > ownUserId`. -/
def shouldInitiateCall (m : MemberState) : Bool :=
  if m.userId = m.mopts.ownUserId
  then strLt m.mopts.ownDeviceId m.deviceIdM
  else strLt m.mopts.ownUserId m.userId

/-- `Member.connect(localMedia)`: store the media, decide initiator,
and if initiating create a PeerCall and call out on it.  The generated
call id `makeId("c")` is random in the source; it is modelled by the
fixed id `"c"`, which no claim depends on.  `call()` moves the new
PeerCall to `CreateOffer` (spec, 4.B). -/
def Member.connect (m : MemberState) (media : Option Media) :
    MemberState × List MAction :=
  let m1 := { m with localMedia := media }
  if shouldInitiateCall m1 then
    let pc : PeerCallState := { callId := "c", pcState := .createOffer, hangupReason := none }
    ({ m1 with peerCall := some pc }, [.connectInvoked, .peerCalledOut "c" media])
  else
    (m1, [.connectInvoked])

/-- `Member.disconnect(hangup)`: hang up or close the PeerCall, dispose
it, clear it, dispose the local media reference, clear it. -/
def Member.disconnect (m : MemberState) (hangup : Bool) :
    MemberState × List MAction :=
  let a1 : List MAction :=
    match m.peerCall with
    | some _ => if hangup then [.peerHungUp .userHangup] else [.peerClosed]
    | none => []
  let a2 : List MAction :=
    match m.peerCall with
    | some _ => [.peerDisposed]
    | none => []
  let a3 : List MAction :=
    match m.localMedia with
    | some x => [.mediaDisposed x]
    | none => []
  ({ m with peerCall := none, localMedia := none }, a1 ++ a2 ++ a3)

/-- `Member.updateCallInfo(callDeviceMembership)`. -/
def Member.updateCallInfo (m : MemberState) (dev : DeviceEntry) : MemberState :=
  { m with callDeviceMembership := dev }

/-- `Member.emitUpdate(peerCall, params)`: auto-answer when Ringing;
on Ended dispose the PeerCall and, for a retryable hangup reason,
increment the retry count and re-run `connect` while the count is at
most 3. -/
def Member.emitUpdate (m : MemberState) (pc : PeerCallState) :
    MemberState × List MAction :=
  if pc.pcState = .ringing then
    (m, [.peerAnswered m.localMedia])
  else if pc.pcState = .ended then
    let m1 := { m with peerCall := none }
    match pc.hangupReason with
    | some reason =>
      if reason ∈ errorCodesWithoutRetry then
        (m1, [.peerDisposed])
      else
        let m2 := { m1 with retryCount := m1.retryCount + 1 }
        if m2.retryCount ≤ 3 then
          let r := Member.connect m2 m2.localMedia
          (r.1, .peerDisposed :: r.2)
        else
          (m2, [.peerDisposed])
    | none => (m1, [.peerDisposed])
  else
    (m, [])

/-- `Member.handleDeviceMessage(message, ...)`: drop messages whose
`dest_session_id` is not our own session id; an Invite creates the
PeerCall when none exists; if a PeerCall exists the message is handed
to it, otherwise it is discarded (the source's TODO about buffering is
not implemented).  The PeerCall's internal reaction is external and is
recorded only as an action. -/
def Member.handleDeviceMessage (m : MemberState) (msg : SignallingMessage) :
    MemberState × List MAction :=
  if msg.destSessionId ≠ m.mopts.ownSessionId then
    (m, [])
  else
    let m1 :=
      if msg.mtype = .invite ∧ m.peerCall = none then
        { m with peerCall := some { callId := msg.callId, pcState := .fledgling, hangupReason := none } }
      else m
    match m1.peerCall with
    | some _ => (m1, [.peerHandledMessage msg])
    | none => (m1, [])

/-- `Member.setMedia(localMedia)`: remember the old media, install the
new one, forward it to the PeerCall, then dispose the old media. -/
def Member.setMedia (m : MemberState) (media : Media) :
    MemberState × List MAction :=
  let oldMedia := m.localMedia
  let m1 := { m with localMedia := some media }
  let a1 : List MAction :=
    match m1.peerCall with
    | some _ => [.peerSetMedia media]
    | none => []
  let a2 : List MAction :=
    match oldMedia with
    | some x => [.mediaDisposed x]
    | none => []
  (m1, a1 ++ a2)

/-- Strict lexicographic order on (user id, device id) pairs, built on
the JavaScript string order. -/
def pairLt (a b : String × String) : Prop :=
  strLt a.1 b.1 = true ∨ (a.1 = b.1 ∧ strLt a.2 b.2 = true)

/-! ### GroupCall embedding -/

/-- The GroupCall lifecycle states (`GroupCallState` enum). -/
inductive GCState where
  | fledgling
  | creating
  | created
  | joining
  | joined
deriving DecidableEq, Repr

/-- `m.intent` values (`CallIntent`). -/
inductive CallIntent where
  | ring
  | prompt
  | room
deriving DecidableEq, Repr

/-- The conference state event content fields the claims depend on
(`m.intent`, `m.terminated`). -/
structure CallContent where
  intent : CallIntent
  terminated : Bool
deriving DecidableEq, Repr

/-- A member key `(user_id, device_id)`.  The source builds the string
`JSON.stringify(userId) + "," + JSON.stringify(deviceId)`, an injective
encoding of exactly this pair. -/
abbrev MemberKey := String × String

/-- Lookup in an insertion-ordered association list (the model of
`ObservableMap`/`Map`). -/
def lookupA {α : Type} : List (MemberKey × α) → MemberKey → Option α
  | [], _ => none
  | (k, v) :: rest, key => if k = key then some v else lookupA rest key

/-- `map.add(key, v)`: the source only adds keys that are absent, and a
JavaScript `Map` appends new keys in insertion order. -/
def mapAdd {α : Type} (l : List (MemberKey × α)) (k : MemberKey) (v : α) :
    List (MemberKey × α) :=
  l ++ [(k, v)]

/-- `map.update(key, v)` / `map.set(key, v)` on a present key: replace
in place, preserving insertion order. -/
def mapUpdate {α : Type} : List (MemberKey × α) → MemberKey → α → List (MemberKey × α)
  | [], _, _ => []
  | (k, v) :: rest, key, nv =>
    if k = key then (k, nv) :: rest else (k, v) :: mapUpdate rest key nv

/-- `map.remove(key)` / `map.delete(key)`: afterwards the key is
absent (a `Map` holds at most one entry per key). -/
def mapRemove {α : Type} : List (MemberKey × α) → MemberKey → List (MemberKey × α)
  | [], _ => []
  | (k, v) :: rest, key =>
    if k = key then mapRemove rest key else (k, v) :: mapRemove rest key

/-- `Set.prototype.add`: append unless an identical entry is present. -/
def pushSet (l : List SignallingMessage) (m : SignallingMessage) : List SignallingMessage :=
  if m ∈ l then l else l ++ [m]

/-- Set an entry of the buffered-messages map (creating it when absent,
as `bufferedDeviceMessages.set(key, messages)` does). -/
def bufSet : List (MemberKey × List SignallingMessage) → MemberKey → List SignallingMessage →
    List (MemberKey × List SignallingMessage)
  | [], key, msgs => [(key, msgs)]
  | (k, v) :: rest, key, msgs =>
    if k = key then (k, msgs) :: rest else (k, v) :: bufSet rest key msgs

/-- Observable effects of GroupCall operations. -/
inductive GAction where
  | delivered (key : MemberKey) (msg : SignallingMessage)
  | bufferedMsg (key : MemberKey) (msg : SignallingMessage)
  | memberAdded (key : MemberKey)
  | memberRemoved (key : MemberKey)
  | memberUpdated (key : MemberKey)
  | memberDisconnected (key : MemberKey) (hangup : Bool)
  | connectInvoked (key : MemberKey)
  | sentMemberState
  | sentTerminated
  | sentCallState
deriving DecidableEq, Repr

/-- The GroupCall fields the claims depend on.  `joinedData` is
modelled by its `localMedia` (its log items, mute settings and TURN
handle play no role in any claim).  `roomState` models the own user's
`m.call.member` device list for this conference as held in storage; the
source sends a state event and later reads its echo back from storage,
which the sequential model collapses into a direct update. -/
structure GroupCall where
  gid : String
  gcState : GCState
  callContent : CallContent
  gcMembers : List (MemberKey × MemberState)
  bufferedDeviceMessages : List (MemberKey × List SignallingMessage)
  joinedData : Option Media
  gopts : MemberOptions
  roomState : List DeviceEntry
  deviceIndex : Option Nat
deriving DecidableEq, Repr

/-- `get hasJoined()`. -/
def GroupCall.hasJoined (g : GroupCall) : Bool :=
  g.gcState = .joining || g.gcState = .joined

/-- `get localMedia()`: `joinedData?.localMedia`. -/
def GroupCall.localMedia (g : GroupCall) : Option Media :=
  g.joinedData

/-- `get isTerminated()`. -/
def GroupCall.isTerminated (g : GroupCall) : Bool :=
  g.callContent.terminated

/-- `get intent()`. -/
def GroupCall.intent (g : GroupCall) : CallIntent :=
  g.callContent.intent

/-- The buffered messages held for a key (empty when the key is absent,
as for a missing `Map` entry). -/
def GroupCall.bufferedAt (g : GroupCall) (key : MemberKey) : List SignallingMessage :=
  (lookupA g.bufferedDeviceMessages key).getD []

/-- `GroupCall.handleDeviceMessage(message, userId, deviceId, ...)`:
deliver straight to the Member when one exists for the key and the
message's `sender_session_id` equals its session id; otherwise buffer
the message under the key. -/
def GroupCall.handleDeviceMessage (g : GroupCall) (msg : SignallingMessage)
    (userId deviceId : String) : GroupCall × List GAction :=
  let key : MemberKey := (userId, deviceId)
  match lookupA g.gcMembers key with
  | some mem =>
    if msg.senderSessionId = mem.sessionIdM then
      let r := Member.handleDeviceMessage mem msg
      ({ g with gcMembers := mapUpdate g.gcMembers key r.1 }, [.delivered key msg])
    else
      ({ g with bufferedDeviceMessages := bufSet g.bufferedDeviceMessages key (pushSet (g.bufferedAt key) msg) },
       [.bufferedMsg key msg])
  | none =>
    ({ g with bufferedDeviceMessages := bufSet g.bufferedDeviceMessages key (pushSet (g.bufferedAt key) msg) },
     [.bufferedMsg key msg])

/-- The loop body of `flushPendingIncomingDeviceMessages`: walk the
buffered set in insertion order; entries whose `sender_session_id`
matches the member's session id are handed to the member and removed,
the rest stay.  Returns the updated member, the remaining buffer and
the delivery actions. -/
def flushLoop (key : MemberKey) (mem : MemberState) :
    List SignallingMessage → MemberState × List SignallingMessage × List GAction
  | [] => (mem, [], [])
  | msg :: rest =>
    if msg.senderSessionId = mem.sessionIdM then
      let m1 := (Member.handleDeviceMessage mem msg).1
      let r := flushLoop key m1 rest
      (r.1, r.2.1, .delivered key msg :: r.2.2)
    else
      let r := flushLoop key mem rest
      (r.1, msg :: r.2.1, r.2.2)

/-- `GroupCall.flushPendingIncomingDeviceMessages(member, ...)`:
deliver the buffered entries matching the member's session id, drop the
buffer key when it becomes empty. -/
def GroupCall.flushPending (g : GroupCall) (key : MemberKey) : GroupCall × List GAction :=
  match lookupA g.gcMembers key with
  | none => (g, [])
  | some mem =>
    let r := flushLoop key mem (g.bufferedAt key)
    let buffered' :=
      if r.2.1.isEmpty then mapRemove g.bufferedDeviceMessages key
      else bufSet g.bufferedDeviceMessages key r.2.1
    ({ g with gcMembers := mapUpdate g.gcMembers key r.1,
              bufferedDeviceMessages := buffered' },
     r.2.2)

/-- The member-creation tail shared by the "no member yet" and
"session id changed" branches of `updateMembership`: build a fresh
Member (retry count 0), add it, connect it when `joinedData` exists,
then flush pending messages. -/
def GroupCall.createMemberPath (g : GroupCall) (userId : String) (dev : DeviceEntry) :
    GroupCall × List GAction :=
  let key : MemberKey := (userId, dev.deviceIdD)
  let mem0 : MemberState :=
    { userId := userId, callDeviceMembership := dev, mopts := g.gopts,
      peerCall := none, localMedia := none, retryCount := 0 }
  match g.joinedData with
  | some media =>
    let mem1 := (Member.connect mem0 (some media)).1
    let g2 := { g with gcMembers := mapUpdate (mapAdd g.gcMembers key mem0) key mem1 }
    let fl := GroupCall.flushPending g2 key
    (fl.1, GAction.memberAdded key :: GAction.connectInvoked key :: fl.2)
  | none =>
    let g1 := { g with gcMembers := mapAdd g.gcMembers key mem0 }
    let fl := GroupCall.flushPending g1 key
    (fl.1, GAction.memberAdded key :: fl.2)

/-- One `devices` entry of `GroupCall.updateMembership`: the own device
updates `deviceIndex` and promotes `Joining` to `Joined`; a matching
remote member is updated in place; a session-id change disconnects and
removes the old member before creating its replacement; an unknown
device creates a member.  Every non-own branch ends by flushing the
pending buffer for the key. -/
def GroupCall.updateMemberDevice (g : GroupCall) (userId : String) (dev : DeviceEntry)
    (deviceIndex : Nat) : GroupCall × List GAction :=
  let key : MemberKey := (userId, dev.deviceIdD)
  if userId = g.gopts.ownUserId ∧ dev.deviceIdD = g.gopts.ownDeviceId then
    let g1 := { g with deviceIndex := some deviceIndex }
    if g1.gcState = .joining then ({ g1 with gcState := .joined }, []) else (g1, [])
  else
    match lookupA g.gcMembers key with
    | some mem =>
      if mem.sessionIdM = dev.sessionIdD then
        let g1 := { g with gcMembers := mapUpdate g.gcMembers key (Member.updateCallInfo mem dev) }
        let fl := GroupCall.flushPending g1 key
        (fl.1, GAction.memberUpdated key :: fl.2)
      else
        let g1 := { g with gcMembers := mapRemove g.gcMembers key }
        let r := GroupCall.createMemberPath g1 userId dev
        (r.1, GAction.memberDisconnected key false :: GAction.memberRemoved key :: r.2)
    | none =>
      GroupCall.createMemberPath g userId dev

/-- `connectToMember` applied to every member, as the loop at the end
of `join` does. -/
def connectAll (media : Media) :
    List (MemberKey × MemberState) → List (MemberKey × MemberState) × List GAction
  | [] => ([], [])
  | (k, mem) :: rest =>
    let mem' := (Member.connect mem (some media)).1
    let r := connectAll media rest
    ((k, mem') :: r.1, GAction.connectInvoked k :: r.2)

/-- `_createJoinPayload`: remove any stale entry for the own device,
then append the own device with the current session id. -/
def joinPayloadDevices (devices : List DeviceEntry) (o : MemberOptions) : List DeviceEntry :=
  devices.filter (fun d => d.deviceIdD ≠ o.ownDeviceId) ++
    [{ deviceIdD := o.ownDeviceId, sessionIdD := o.ownSessionId }]

/-- `GroupCall.join(localMedia)`: a no-op unless the state is `Created`
with no `joinedData`; otherwise install the joined data, enter
`Joining`, publish the own device in the member state event and connect
to every existing member. -/
def GroupCall.join (g : GroupCall) (media : Media) : GroupCall × List GAction :=
  if g.gcState ≠ .created ∨ g.joinedData.isSome then (g, [])
  else
    let devices := joinPayloadDevices g.roomState g.gopts
    let g1 := { g with joinedData := some media, gcState := .joining,
                       roomState := devices, deviceIndex := some devices.length }
    let r := connectAll media g1.gcMembers
    ({ g1 with gcMembers := r.1 }, GAction.sentMemberState :: r.2)

/-- `Member.disconnect` applied to every member, as
`GroupCall.disconnect` does while `Joined`. -/
def disconnectAll :
    List (MemberKey × MemberState) → List (MemberKey × MemberState) × List GAction
  | [] => ([], [])
  | (k, mem) :: rest =>
    let mem' := (Member.disconnect mem true).1
    let r := disconnectAll rest
    ((k, mem') :: r.1, GAction.memberDisconnected k true :: r.2)

/-- `GroupCall.disconnect(log)`: while `Joined`, hang up every member
and fall back to `Created`; in every case dispose and clear the joined
data.  (A call that is merely `Joining` keeps its state.) -/
def GroupCall.disconnect (g : GroupCall) : GroupCall × List GAction :=
  let step :=
    if g.gcState = .joined then
      let r := disconnectAll g.gcMembers
      ({ g with gcMembers := r.1, gcState := .created }, r.2)
    else (g, [])
  ({ step.1 with joinedData := none }, step.2)

/-- `GroupCall.terminate(log)`: outside `Fledgling`, send the
conference state event with `m.terminated: true` (the model applies
the echo to `callContent` directly). -/
def GroupCall.terminate (g : GroupCall) : GroupCall × List GAction :=
  if g.gcState = .fledgling then (g, [])
  else ({ g with callContent := { g.callContent with terminated := true } }, [.sentTerminated])

/-- Remove the first device entry with the given device id
(`splice(deviceIndex, 1)` at the found index). -/
def removeFirstDevice : List DeviceEntry → String → List DeviceEntry
  | [], _ => []
  | d :: rest, did => if d.deviceIdD = did then rest else d :: removeFirstDevice rest did

/-- `_leaveCallMemberContent`: when the own device is present, the new
content removes its first occurrence; otherwise there is nothing to
send. -/
def leaveCallMemberContent (devices : List DeviceEntry) (o : MemberOptions) :
    Option (List DeviceEntry) :=
  if devices.any (fun d => d.deviceIdD = o.ownDeviceId) then
    some (removeFirstDevice devices o.ownDeviceId)
  else none

/-- Is a device with this id present in a device list. -/
def devicePresent (devices : List DeviceEntry) (did : String) : Bool :=
  devices.any (fun d => d.deviceIdD = did)

/-- How many entries of a device list carry this device id. -/
def countDevice (devices : List DeviceEntry) (did : String) : Nat :=
  (devices.filter (fun d => decide (d.deviceIdD = did))).length

/-- `GroupCall.leave()`: a no-op without `joinedData`; otherwise send
the member state event with the own device removed, terminate the
conference when the intent is `Ring` and no members remain, and finally
disconnect. -/
def GroupCall.leave (g : GroupCall) : GroupCall × List GAction :=
  match g.joinedData with
  | none => (g, [])
  | some _ =>
    match leaveCallMemberContent g.roomState g.gopts with
    | some devices' =>
      let g1 := { g with roomState := devices' }
      let t :=
        if g1.callContent.intent = .ring ∧ g1.gcMembers.length = 0 then
          GroupCall.terminate g1
        else (g1, [])
      let d := GroupCall.disconnect t.1
      (d.1, GAction.sentMemberState :: (t.2 ++ d.2))
    | none =>
      GroupCall.disconnect g

/-- `Member.setMedia` applied to every member, as `GroupCall.setMedia`
does. -/
def setMediaAll (media : Media) :
    List (MemberKey × MemberState) → List (MemberKey × MemberState) × List GAction
  | [] => ([], [])
  | (k, mem) :: rest =>
    let mem' := (Member.setMedia mem media).1
    let r := setMediaAll media rest
    ((k, mem') :: r.1, r.2)

/-- `GroupCall.setMedia(localMedia)`: while `Joining`/`Joined` with
joined data, install the new media, fan it out to every member, then
dispose the old media object. -/
def GroupCall.setMedia (g : GroupCall) (media : Media) : GroupCall × List GAction :=
  if (g.gcState = .joining ∨ g.gcState = .joined) ∧ g.joinedData.isSome then
    let g1 := { g with joinedData := some media }
    let r := setMediaAll media g1.gcMembers
    ({ g1 with gcMembers := r.1 }, r.2)
  else (g, [])

/-- `removeMemberDevice(userId, deviceId, log)`: drop the member from
the map, then disconnect it without hanging up. -/
def GroupCall.removeMemberDevice (g : GroupCall) (userId deviceId : String) :
    GroupCall × List GAction :=
  let key : MemberKey := (userId, deviceId)
  match lookupA g.gcMembers key with
  | some _ =>
    ({ g with gcMembers := mapRemove g.gcMembers key },
     [.memberRemoved key, .memberDisconnected key false])
  | none => (g, [])

/-- `GroupCall.create(type)`: from `Fledgling`, send the conference
state event and settle in `Created` (the intermediate `Creating` state
is not observable once the operation completes). -/
def GroupCall.create (g : GroupCall) : GroupCall × List GAction :=
  if g.gcState ≠ .fledgling then (g, [])
  else ({ g with gcState := .created }, [.sentCallState])

/-- `GroupCall.updateCallEvent(callContent, ...)`: install the new
content and promote `Creating` to `Created`. -/
def GroupCall.updateCallEvent (g : GroupCall) (content : CallContent) : GroupCall :=
  let g1 := { g with callContent := content }
  if g1.gcState = .creating then { g1 with gcState := .created } else g1

/-- The GroupCall operations, for stating state invariants that every
operation preserves. -/
inductive GOp where
  | createOp
  | joinOp (media : Media)
  | setMediaOp (media : Media)
  | leaveOp
  | disconnectOp
  | terminateOp
  | updateEventOp (content : CallContent)
  | handleMsgOp (msg : SignallingMessage) (userId deviceId : String)
  | updateDeviceOp (userId : String) (dev : DeviceEntry) (deviceIndex : Nat)
  | removeDeviceOp (userId deviceId : String)
  | flushOp (key : MemberKey)
deriving DecidableEq, Repr

/-- Does `handleDeviceMessage` deliver this message immediately: a
member exists for the key and the message's `sender_session_id` equals
that member's session id. -/
def deliversNow (g : GroupCall) (msg : SignallingMessage) (key : MemberKey) : Bool :=
  match lookupA g.gcMembers key with
  | some mem => decide (msg.senderSessionId = mem.sessionIdM)
  | none => false

/-- The `delivered` events of an action trace, in order. -/
def deliveredOf : List GAction → List GAction
  | [] => []
  | .delivered k m :: rest => .delivered k m :: deliveredOf rest
  | _ :: rest => deliveredOf rest

/-- Is an action a disposal of a media object. -/
def isMediaDispose : MAction → Bool
  | .mediaDisposed _ => true
  | _ => false

/-- The state invariant under examination: non-null local media implies
the call has joined. -/
def mediaImpliesJoined (g : GroupCall) : Prop :=
  g.joinedData.isSome = true → GroupCall.hasJoined g = true

/-- Apply one GroupCall operation (discarding the emitted actions). -/
def applyG (g : GroupCall) : GOp → GroupCall
  | .createOp => (GroupCall.create g).1
  | .joinOp media => (GroupCall.join g media).1
  | .setMediaOp media => (GroupCall.setMedia g media).1
  | .leaveOp => (GroupCall.leave g).1
  | .disconnectOp => (GroupCall.disconnect g).1
  | .terminateOp => (GroupCall.terminate g).1
  | .updateEventOp content => GroupCall.updateCallEvent g content
  | .handleMsgOp msg userId deviceId => (GroupCall.handleDeviceMessage g msg userId deviceId).1
  | .updateDeviceOp userId dev deviceIndex => (GroupCall.updateMemberDevice g userId dev deviceIndex).1
  | .removeDeviceOp userId deviceId => (GroupCall.removeMemberDevice g userId deviceId).1
  | .flushOp key => (GroupCall.flushPending g key).1

/-! ### Fixtures -/

/-- A remote member of another user whose ids are lexicographically
greater than ours. -/
def mEx1 : MemberState :=
  { userId := "@b:hs", callDeviceMembership := { deviceIdD := "BDEV", sessionIdD := "bsess" },
    mopts := { confId := "conf", ownUserId := "@a:hs", ownDeviceId := "ADEV", ownSessionId := "asess" },
    peerCall := none, localMedia := none, retryCount := 0 }

/-- A member holding local media, with no retries so far. -/
def mEx2 : MemberState :=
  { mEx1 with localMedia := some 3 }

/-- A PeerCall that ended with a retryable hangup reason. -/
def pcEnded : PeerCallState :=
  { callId := "c9", pcState := .ended, hangupReason := some .iceFailed }

/-- A PeerCall put into Ringing by an incoming invite. -/
def pcRinging : PeerCallState :=
  { callId := "c7", pcState := .ringing, hangupReason := none }

/-- A member holding media 5 and a live PeerCall. -/
def mEx8 : MemberState :=
  { mEx1 with localMedia := some 5, peerCall := some pcRinging }

/-- A Candidates message addressed to our session. -/
def msgCand : SignallingMessage :=
  { mtype := .candidates, callId := "c5", senderSessionId := "bsess",
    destSessionId := "asess", mid := 0 }

/-- A freshly observed conference: Created, intent Ring, no members,
nothing buffered, not joined, own member state event empty. -/
def gEx0 : GroupCall :=
  { gid := "conf", gcState := .created,
    callContent := { intent := .ring, terminated := false },
    gcMembers := [], bufferedDeviceMessages := [], joinedData := none,
    gopts := { confId := "conf", ownUserId := "@a:hs", ownDeviceId := "ADEV", ownSessionId := "asess" },
    roomState := [], deviceIndex := none }

/-- The conference after joining with media 7. -/
def gEx1 : GroupCall := (GroupCall.join gEx0 7).1

/-- The i-th of a stream of Candidates messages from a sender whose
membership has not arrived yet. -/
def msg65 (i : Nat) : SignallingMessage :=
  { mtype := .candidates, callId := "c5", senderSessionId := "S7",
    destSessionId := "asess", mid := i }

/-- The conference after 65 such messages arrived with no member for
the key. -/
def g4Full : GroupCall :=
  (List.range 65).foldl
    (fun g i => (GroupCall.handleDeviceMessage g (msg65 i) "@u:hs" "UDEV").1) gEx0

/-- A remote device entry carrying session S7. -/
def devS7 : DeviceEntry := { deviceIdD := "UDEV", sessionIdD := "S7" }

/-- A remote device entry carrying session S2. -/
def devS2 : DeviceEntry := { deviceIdD := "UDEV", sessionIdD := "S2" }

/-- A member holding session S1 for ("@u:hs","UDEV"), with two retries
behind it. -/
def memEx5 : MemberState :=
  { userId := "@u:hs", callDeviceMembership := { deviceIdD := "UDEV", sessionIdD := "S1" },
    mopts := gEx0.gopts, peerCall := none, localMedia := none, retryCount := 2 }

/-- A conference holding one member for ("@u:hs","UDEV") with session
S1, and one buffered message tagged S2. -/
def gEx5 : GroupCall :=
  { gEx0 with
    gcMembers := [(("@u:hs", "UDEV"), memEx5)],
    bufferedDeviceMessages := [(("@u:hs", "UDEV"),
      [{ mtype := .invite, callId := "c2", senderSessionId := "S2",
         destSessionId := "asess", mid := 100 }])] }

/-! ### Helper lemmas -/

theorem strLtB_self (l : List Char) : strLtB l l = false := by
  induction l with
  | nil => rfl
  | cons a as ih => simp [strLtB, ih]

theorem strLt_self (s : String) : strLt s s = false := strLtB_self s.data

/-- The boolean decision in `Member.connect` agrees with the
lexicographic pair order: this side initiates exactly when the own
`(user_id, device_id)` is lexicographically less than the remote's. -/
theorem shouldInitiate_iff_pairLt (m : MemberState) :
    shouldInitiateCall m = true ↔
      pairLt (m.mopts.ownUserId, m.mopts.ownDeviceId) (m.userId, m.deviceIdM) := by
  unfold shouldInitiateCall pairLt
  by_cases h : m.userId = m.mopts.ownUserId
  · simp [h, strLt_self]
  · simp only [if_neg h]
    constructor
    · intro h1; exact Or.inl h1
    · rintro (h1 | ⟨h2, _⟩)
      · exact h1
      · exact absurd h2.symm h

theorem connect_fields (m : MemberState) (media : Option Media) :
    (Member.connect m media).1.callDeviceMembership = m.callDeviceMembership ∧
    (Member.connect m media).1.retryCount = m.retryCount ∧
    (Member.connect m media).1.userId = m.userId ∧
    (Member.connect m media).1.mopts = m.mopts ∧
    (Member.connect m media).1.localMedia = media := by
  unfold Member.connect
  by_cases h : shouldInitiateCall { m with localMedia := media } = true <;> simp [h]

theorem connect_acts_mem (m : MemberState) (media : Option Media) :
    MAction.connectInvoked ∈ (Member.connect m media).2 := by
  unfold Member.connect
  by_cases h : shouldInitiateCall { m with localMedia := media } = true <;> simp [h]

theorem connect_no_dispose (m : MemberState) (media : Option Media) :
    (Member.connect m media).2.any isMediaDispose = false := by
  unfold Member.connect
  by_cases h : shouldInitiateCall { m with localMedia := media } = true <;>
    simp [h, isMediaDispose]

theorem emitUpdate_no_dispose (m : MemberState) (pc : PeerCallState) :
    (Member.emitUpdate m pc).2.any isMediaDispose = false := by
  unfold Member.emitUpdate
  by_cases h1 : pc.pcState = .ringing
  · simp [h1, isMediaDispose]
  · simp only [if_neg h1]
    by_cases h2 : pc.pcState = .ended
    · simp only [if_pos h2]
      cases hr : pc.hangupReason with
      | none => simp [isMediaDispose]
      | some reason =>
        by_cases hc : reason ∈ errorCodesWithoutRetry
        · simp [hc, isMediaDispose]
        · by_cases hle : m.retryCount + 1 ≤ 3
          · simp [hc, hle, isMediaDispose, connect_no_dispose]
          · simp [hc, hle, isMediaDispose]
    · simp [if_neg h2]

/-- The full result of `Member.emitUpdate` when the PeerCall ended with
a hangup reason. -/
theorem emitUpdate_ended (m : MemberState) (pc : PeerCallState) (reason : CallErrorCode)
    (hend : pc.pcState = .ended) (hr : pc.hangupReason = some reason) :
    Member.emitUpdate m pc =
      if reason ∈ errorCodesWithoutRetry then
        ({ m with peerCall := none }, [.peerDisposed])
      else if m.retryCount + 1 ≤ 3 then
        ((Member.connect { m with peerCall := none, retryCount := m.retryCount + 1 } m.localMedia).1,
         .peerDisposed ::
           (Member.connect { m with peerCall := none, retryCount := m.retryCount + 1 } m.localMedia).2)
      else
        ({ m with peerCall := none, retryCount := m.retryCount + 1 }, [.peerDisposed]) := by
  unfold Member.emitUpdate
  rw [hend, hr]
  simp only [reduceCtorEq, reduceIte]

theorem hdm_fields (m : MemberState) (msg : SignallingMessage) :
    (Member.handleDeviceMessage m msg).1.callDeviceMembership = m.callDeviceMembership ∧
    (Member.handleDeviceMessage m msg).1.retryCount = m.retryCount ∧
    (Member.handleDeviceMessage m msg).1.userId = m.userId ∧
    (Member.handleDeviceMessage m msg).1.mopts = m.mopts := by
  unfold Member.handleDeviceMessage
  by_cases hd : msg.destSessionId ≠ m.mopts.ownSessionId
  · simp [hd]
  · simp only [hd, if_false]
    by_cases hi : msg.mtype = .invite ∧ m.peerCall = none
    · simp [hi]
    · simp only [hi, if_false]
      cases hp : m.peerCall <;> simp [hp]

/-! ### C1 -/

/-- C1 counterexample: with own ids ("@a:hs","ADEV") and remote member
("@b:hs","BDEV"), the remote (user_id, device_id) is lexicographically
greater than ours, yet `Member.connect` creates an outgoing PeerCall on
this side — the claim predicts the opposite (initiate iff the remote
pair is less than ours). -/
theorem c1_counterexample :
    (Member.connect mEx1 (some 0)).1.peerCall.isSome = true ∧
    strLt mEx1.mopts.ownUserId mEx1.userId = true := by decide

/-- C1 (amended): `Member.connect` computes this side as the initiator
iff the own `(user_id, device_id)` is lexicographically less than the
remote's — equal user ids compare the device ids, distinct user ids
compare the user ids — and the non-initiating side creates no outgoing
PeerCall (it awaits an Invite). -/
theorem c1_theorem (m : MemberState) (media : Option Media) (hpc : m.peerCall = none) :
    ((Member.connect m media).1.peerCall.isSome = true ↔
       pairLt (m.mopts.ownUserId, m.mopts.ownDeviceId) (m.userId, m.deviceIdM)) ∧
    (¬ pairLt (m.mopts.ownUserId, m.mopts.ownDeviceId) (m.userId, m.deviceIdM) →
       (Member.connect m media).1.peerCall = none ∧
       (Member.connect m media).2 = [MAction.connectInvoked]) := by
  have hiff : shouldInitiateCall { m with localMedia := media } = true ↔
      pairLt (m.mopts.ownUserId, m.mopts.ownDeviceId) (m.userId, m.deviceIdM) :=
    shouldInitiate_iff_pairLt { m with localMedia := media }
  by_cases h : shouldInitiateCall { m with localMedia := media } = true
  · have hp := hiff.mp h
    unfold Member.connect
    simp only [h, if_true]
    exact ⟨⟨fun _ => hp, fun _ => rfl⟩, fun hn => absurd hp hn⟩
  · have hnp : ¬ pairLt (m.mopts.ownUserId, m.mopts.ownDeviceId) (m.userId, m.deviceIdM) :=
      fun hp => h (hiff.mpr hp)
    unfold Member.connect
    simp only [eq_false_of_ne_true h, Bool.false_eq_true, if_false]
    refine ⟨by simp [hpc, hnp], fun _ => ?_⟩
    simp [hpc]

/-- C1 witness: the amended theorem applied to the concrete member
`mEx1`, whose remote pair is greater than ours, so this side initiates. -/
theorem c1_witness :
    mEx1.peerCall = none ∧
    ((Member.connect mEx1 (some 0)).1.peerCall.isSome = true ↔
      pairLt (mEx1.mopts.ownUserId, mEx1.mopts.ownDeviceId) (mEx1.userId, mEx1.deviceIdM)) :=
  ⟨rfl, (c1_theorem mEx1 (some 0) rfl).1⟩

/-! ### C2 -/

/-- C2: when the owned PeerCall reaches Ended with a hangup reason, the
Member re-runs `connect` exactly when the reason is outside
`errorCodesWithoutRetry` and the incremented retry count is at most 3;
the retry count is incremented exactly for retryable reasons. -/
theorem c2_theorem (m : MemberState) (pc : PeerCallState) (reason : CallErrorCode)
    (hend : pc.pcState = .ended) (hr : pc.hangupReason = some reason) :
    (MAction.connectInvoked ∈ (Member.emitUpdate m pc).2 ↔
       (reason ∉ errorCodesWithoutRetry ∧ m.retryCount + 1 ≤ 3)) ∧
    ((Member.emitUpdate m pc).1.retryCount =
       if reason ∈ errorCodesWithoutRetry then m.retryCount else m.retryCount + 1) := by
  rw [emitUpdate_ended m pc reason hend hr]
  by_cases hc : reason ∈ errorCodesWithoutRetry
  · simp [hc]
  · by_cases hle : m.retryCount + 1 ≤ 3
    · simp only [if_neg hc, if_pos hle]
      refine ⟨⟨fun _ => ⟨hc, hle⟩, fun _ => List.mem_cons_of_mem _ (connect_acts_mem _ _)⟩, ?_⟩
      have hcf := connect_fields { m with peerCall := none, retryCount := m.retryCount + 1 }
          m.localMedia
      simpa using hcf.2.1
    · simp [hc, hle]

/-- C2 witness: a first retryable hangup (`iceFailed`) on a member with
retry count 0 re-runs `connect` and sets the retry count to 1. -/
theorem c2_witness :
    pcEnded.pcState = .ended ∧ pcEnded.hangupReason = some .iceFailed ∧
    (MAction.connectInvoked ∈ (Member.emitUpdate mEx2 pcEnded).2 ↔
       (CallErrorCode.iceFailed ∉ errorCodesWithoutRetry ∧ mEx2.retryCount + 1 ≤ 3)) ∧
    ((Member.emitUpdate mEx2 pcEnded).1.retryCount =
       if CallErrorCode.iceFailed ∈ errorCodesWithoutRetry then mEx2.retryCount
       else mEx2.retryCount + 1) :=
  ⟨rfl, rfl, (c2_theorem mEx2 pcEnded .iceFailed rfl rfl).1,
   (c2_theorem mEx2 pcEnded .iceFailed rfl rfl).2⟩

/-! ### C8 -/

/-- C8 counterexample: `Member.disconnect` (a Member operation)
disposes the shared local media object it holds, contradicting the
claim that no Member operation ever disposes it. -/
theorem c8_counterexample :
    MAction.mediaDisposed 5 ∈ (Member.disconnect mEx8 true).2 := by decide

/-- C8 (amended): `Member.connect` and the retry path (`emitUpdate`)
never dispose a media object; but `Member.disconnect` disposes the
media reference the Member holds (exactly when it holds one), and
`Member.setMedia` replaces the Member's reference and disposes the
previously held media object. -/
theorem c8_theorem (m : MemberState) (media : Option Media) (mediaN : Media)
    (pc : PeerCallState) (hang : Bool) :
    ((Member.connect m media).2.any isMediaDispose = false) ∧
    ((Member.emitUpdate m pc).2.any isMediaDispose = false) ∧
    ((Member.disconnect m hang).2.any isMediaDispose = m.localMedia.isSome) ∧
    ((Member.disconnect m hang).1.localMedia = none) ∧
    ((Member.setMedia m mediaN).2.any isMediaDispose = m.localMedia.isSome) ∧
    ((Member.setMedia m mediaN).1.localMedia = some mediaN) := by
  refine ⟨connect_no_dispose m media, emitUpdate_no_dispose m pc, ?_, ?_, ?_, ?_⟩
  · unfold Member.disconnect
    cases hp : m.peerCall <;> cases hm : m.localMedia <;> cases hang <;>
      simp [hp, hm, isMediaDispose]
  · unfold Member.disconnect; simp
  · unfold Member.setMedia
    cases hp : m.peerCall <;> cases hm : m.localMedia <;> simp [hp, hm, isMediaDispose]
  · unfold Member.setMedia; simp

/-! ### C9 -/

/-- C9: whenever the Member's PeerCall emits an update in state
Ringing, the Member immediately answers it with its current local
media, with no other effect. -/
theorem c9_theorem (m : MemberState) (pc : PeerCallState) (h : pc.pcState = .ringing) :
    Member.emitUpdate m pc = (m, [.peerAnswered m.localMedia]) := by
  unfold Member.emitUpdate
  rw [h]
  simp

/-- C9 witness: a concrete Ringing PeerCall is answered with the
member's current media. -/
theorem c9_witness :
    pcRinging.pcState = .ringing ∧
    Member.emitUpdate mEx2 pcRinging = (mEx2, [.peerAnswered mEx2.localMedia]) :=
  ⟨rfl, c9_theorem mEx2 pcRinging rfl⟩

/-! ### C10 -/

/-- C10: a message for our session that is not an Invite and finds no
PeerCall is silently discarded — the member state is unchanged (nothing
is buffered) and nothing is handed to a PeerCall; and when no PeerCall
exists, only an Invite can create one. -/
theorem c10_theorem (m : MemberState) (msg : SignallingMessage)
    (hdest : msg.destSessionId = m.mopts.ownSessionId)
    (hpc : m.peerCall = none) (hty : msg.mtype ≠ .invite) :
    Member.handleDeviceMessage m msg = (m, []) ∧
    (∀ msg2 : SignallingMessage,
       (Member.handleDeviceMessage m msg2).1.peerCall.isSome = true → msg2.mtype = .invite) := by
  constructor
  · unfold Member.handleDeviceMessage
    simp only [hdest, ne_eq, not_true_eq_false, if_false]
    have : ¬ (msg.mtype = .invite ∧ m.peerCall = none) := fun hx => hty hx.1
    simp only [this, if_false]
    rw [hpc]
  · intro msg2
    unfold Member.handleDeviceMessage
    by_cases hd : msg2.destSessionId ≠ m.mopts.ownSessionId
    · simp [hd, hpc]
    · simp only [hd, if_false]
      by_cases hi : msg2.mtype = .invite ∧ m.peerCall = none
      · intro _; exact hi.1
      · simp only [hi, if_false]
        simp [hpc]

/-- C10 witness: an early Candidates message (no PeerCall yet) is
discarded without effect. -/
theorem c10_witness :
    msgCand.destSessionId = mEx1.mopts.ownSessionId ∧
    mEx1.peerCall = none ∧ msgCand.mtype ≠ .invite ∧
    Member.handleDeviceMessage mEx1 msgCand = (mEx1, []) :=
  ⟨rfl, rfl, by decide, (c10_theorem mEx1 msgCand rfl rfl (by decide)).1⟩

/-! ### GroupCall helper lemmas -/

theorem lookupA_mapRemove_self {α : Type} (l : List (MemberKey × α)) (k : MemberKey) :
    lookupA (mapRemove l k) k = none := by
  induction l with
  | nil => rfl
  | cons p rest ih =>
    obtain ⟨k', v'⟩ := p
    by_cases h : k' = k
    · simp [mapRemove, h, ih]
    · simp [mapRemove, lookupA, h, ih]

theorem lookupA_mapAdd {α : Type} (l : List (MemberKey × α)) (k : MemberKey) (v : α)
    (h : lookupA l k = none) : lookupA (mapAdd l k v) k = some v := by
  induction l with
  | nil => simp [mapAdd, lookupA]
  | cons p rest ih =>
    obtain ⟨k', v'⟩ := p
    by_cases hk : k' = k
    · rw [lookupA, if_pos hk] at h
      exact absurd h (by simp)
    · rw [lookupA, if_neg hk] at h
      show lookupA ((k', v') :: mapAdd rest k v) k = some v
      rw [lookupA, if_neg hk]
      exact ih h

theorem lookupA_mapUpdate_self {α : Type} (l : List (MemberKey × α)) (k : MemberKey) (v : α) :
    lookupA (mapUpdate l k v) k = (lookupA l k).map (fun _ => v) := by
  induction l with
  | nil => rfl
  | cons p rest ih =>
    obtain ⟨k', v'⟩ := p
    by_cases h : k' = k
    · simp [mapUpdate, lookupA, h]
    · simp [mapUpdate, lookupA, h, ih]

theorem lookupA_bufSet_self (l : List (MemberKey × List SignallingMessage)) (k : MemberKey)
    (msgs : List SignallingMessage) : lookupA (bufSet l k msgs) k = some msgs := by
  induction l with
  | nil => simp [bufSet, lookupA]
  | cons p rest ih =>
    obtain ⟨k', v'⟩ := p
    by_cases h : k' = k
    · simp [bufSet, lookupA, h]
    · simp [bufSet, lookupA, h, ih]

theorem deliveredOf_append (a b : List GAction) :
    deliveredOf (a ++ b) = deliveredOf a ++ deliveredOf b := by
  induction a with
  | nil => rfl
  | cons x rest ih => cases x <;> simp [deliveredOf, ih]

theorem deliveredOf_map_delivered (k : MemberKey) (l : List SignallingMessage) :
    deliveredOf (l.map (GAction.delivered k)) = l.map (GAction.delivered k) := by
  induction l with
  | nil => rfl
  | cons x rest ih => simp [deliveredOf, ih]

theorem connectInvoked_not_mem_delivered (k k2 : MemberKey) (l : List SignallingMessage) :
    GAction.connectInvoked k2 ∉ l.map (GAction.delivered k) := by
  simp

theorem hdm_sessionIdM (mem : MemberState) (msg : SignallingMessage) :
    (Member.handleDeviceMessage mem msg).1.sessionIdM = mem.sessionIdM := by
  unfold MemberState.sessionIdM
  rw [(hdm_fields mem msg).1]

theorem connect_sessionIdM (m : MemberState) (media : Option Media) :
    (Member.connect m media).1.sessionIdM = m.sessionIdM := by
  unfold MemberState.sessionIdM
  rw [(connect_fields m media).1]

theorem flushLoop_spec (key : MemberKey) (msgs : List SignallingMessage) :
    ∀ mem : MemberState,
      (flushLoop key mem msgs).2.2 =
        (msgs.filter (fun msg => decide (msg.senderSessionId = mem.sessionIdM))).map
          (GAction.delivered key) ∧
      (flushLoop key mem msgs).2.1 =
        msgs.filter (fun msg => !decide (msg.senderSessionId = mem.sessionIdM)) ∧
      (flushLoop key mem msgs).1.sessionIdM = mem.sessionIdM ∧
      (flushLoop key mem msgs).1.retryCount = mem.retryCount := by
  induction msgs with
  | nil => intro mem; exact ⟨rfl, rfl, rfl, rfl⟩
  | cons msg rest ih =>
    intro mem
    by_cases h : msg.senderSessionId = mem.sessionIdM
    · have hm := hdm_sessionIdM mem msg
      obtain ⟨ih1, ih2, ih3, ih4⟩ := ih (Member.handleDeviceMessage mem msg).1
      simp only [hm] at ih1 ih2
      unfold flushLoop
      simp only [if_pos h]
      refine ⟨?_, ?_, ?_, ?_⟩
      · simp [List.filter_cons, h, ih1]
      · simp [List.filter_cons, h, ih2]
      · rw [ih3, hm]
      · rw [ih4, (hdm_fields mem msg).2.1]
    · obtain ⟨ih1, ih2, ih3, ih4⟩ := ih mem
      unfold flushLoop
      simp only [if_neg h]
      refine ⟨?_, ?_, ih3, ih4⟩
      · simp [List.filter_cons, h, ih1]
      · simp [List.filter_cons, h, ih2]

theorem flushPending_spec (g : GroupCall) (key : MemberKey) (mem : MemberState)
    (hmem : lookupA g.gcMembers key = some mem) :
    (GroupCall.flushPending g key).2 =
      ((g.bufferedAt key).filter (fun msg => decide (msg.senderSessionId = mem.sessionIdM))).map
        (GAction.delivered key) ∧
    (GroupCall.flushPending g key).1.bufferedAt key =
      (g.bufferedAt key).filter (fun msg => !decide (msg.senderSessionId = mem.sessionIdM)) ∧
    lookupA (GroupCall.flushPending g key).1.gcMembers key =
      some (flushLoop key mem (g.bufferedAt key)).1 ∧
    (GroupCall.flushPending g key).1.gcState = g.gcState ∧
    (GroupCall.flushPending g key).1.joinedData = g.joinedData := by
  obtain ⟨h1, h2, _, _⟩ := flushLoop_spec key (g.bufferedAt key) mem
  unfold GroupCall.flushPending
  rw [hmem]
  refine ⟨h1, ?_, ?_, ?_, ?_⟩
  · by_cases he : (flushLoop key mem (g.bufferedAt key)).2.1.isEmpty
    · have hnil : (flushLoop key mem (g.bufferedAt key)).2.1 = [] := by
        simpa [List.isEmpty_iff] using he
      simp only [he, if_true]
      rw [hnil] at h2
      show (lookupA (mapRemove g.bufferedDeviceMessages key) key).getD [] = _
      rw [lookupA_mapRemove_self, ← h2]
      rfl
    · simp only [he, if_false]
      show (lookupA (bufSet g.bufferedDeviceMessages key
        (flushLoop key mem (g.bufferedAt key)).2.1) key).getD [] = _
      rw [lookupA_bufSet_self, h2]
      rfl
  · show lookupA (mapUpdate g.gcMembers key (flushLoop key mem (g.bufferedAt key)).1) key = _
    rw [lookupA_mapUpdate_self, hmem]
    rfl
  · rfl
  · rfl

theorem createMemberPath_spec (g : GroupCall) (userId : String) (dev : DeviceEntry)
    (hnone : lookupA g.gcMembers (userId, dev.deviceIdD) = none) :
    (∃ mem', lookupA (GroupCall.createMemberPath g userId dev).1.gcMembers (userId, dev.deviceIdD)
        = some mem' ∧ mem'.sessionIdM = dev.sessionIdD ∧ mem'.retryCount = 0) ∧
    deliveredOf (GroupCall.createMemberPath g userId dev).2 =
      ((g.bufferedAt (userId, dev.deviceIdD)).filter
        (fun msg => decide (msg.senderSessionId = dev.sessionIdD))).map
        (GAction.delivered (userId, dev.deviceIdD)) ∧
    (GroupCall.createMemberPath g userId dev).1.bufferedAt (userId, dev.deviceIdD) =
      (g.bufferedAt (userId, dev.deviceIdD)).filter
        (fun msg => !decide (msg.senderSessionId = dev.sessionIdD)) ∧
    (GAction.connectInvoked (userId, dev.deviceIdD) ∈ (GroupCall.createMemberPath g userId dev).2 ↔
      g.joinedData.isSome = true) ∧
    (∃ rest, (GroupCall.createMemberPath g userId dev).2 =
      GAction.memberAdded (userId, dev.deviceIdD) :: rest) ∧
    (GroupCall.createMemberPath g userId dev).1.gcState = g.gcState ∧
    (GroupCall.createMemberPath g userId dev).1.joinedData = g.joinedData := by
  unfold GroupCall.createMemberPath
  cases hj : g.joinedData with
  | none =>
    simp only [hj]
    set key : MemberKey := (userId, dev.deviceIdD) with hkey
    set mem0 : MemberState :=
      { userId := userId, callDeviceMembership := dev, mopts := g.gopts,
        peerCall := none, localMedia := none, retryCount := 0 } with hmem0
    set g1 : GroupCall := { g with gcMembers := mapAdd g.gcMembers key mem0, joinedData := none }
      with hg1
    have hl1 : lookupA g1.gcMembers key = some mem0 := lookupA_mapAdd _ _ _ hnone
    obtain ⟨f1, f2, f3, f4, f5⟩ := flushPending_spec g1 key mem0 hl1
    have hbuf : g1.bufferedAt key = g.bufferedAt key := rfl
    have hses : mem0.sessionIdM = dev.sessionIdD := rfl
    obtain ⟨fl1, fl2, fl3, fl4⟩ := flushLoop_spec key (g1.bufferedAt key) mem0
    refine ⟨⟨(flushLoop key mem0 (g1.bufferedAt key)).1, f3, ?_, ?_⟩, ?_, ?_, ?_, ?_, ?_, ?_⟩
    · rw [fl3, hses]
    · rw [fl4]
    · simp only [deliveredOf]
      rw [f1, hbuf, hses]
      exact deliveredOf_map_delivered _ _
    · rw [f2, hbuf, hses]
    · constructor
      · intro hmem
        rcases List.mem_cons.mp hmem with hx | hx
        · exact absurd hx (by simp)
        · rw [f1, hbuf, hses] at hx
          exact absurd hx (connectInvoked_not_mem_delivered _ _ _)
      · intro hx
        exact absurd hx (by simp [hj])
    · exact ⟨_, rfl⟩
    · exact f4
    · rw [f5]
  | some media =>
    simp only [hj]
    set key : MemberKey := (userId, dev.deviceIdD) with hkey
    set mem0 : MemberState :=
      { userId := userId, callDeviceMembership := dev, mopts := g.gopts,
        peerCall := none, localMedia := none, retryCount := 0 } with hmem0
    set mem1 : MemberState := (Member.connect mem0 (some media)).1 with hmem1
    set g2 : GroupCall :=
      { g with gcMembers := mapUpdate (mapAdd g.gcMembers key mem0) key mem1,
               joinedData := some media } with hg2
    have hl2 : lookupA g2.gcMembers key = some mem1 := by
      show lookupA (mapUpdate (mapAdd g.gcMembers key mem0) key mem1) key = some mem1
      rw [lookupA_mapUpdate_self, lookupA_mapAdd _ _ _ hnone]
      rfl
    have hses1 : mem1.sessionIdM = dev.sessionIdD := by
      rw [hmem1, connect_sessionIdM]
      rfl
    have hrc1 : mem1.retryCount = 0 := by
      rw [hmem1, (connect_fields mem0 (some media)).2.1]
    obtain ⟨f1, f2, f3, f4, f5⟩ := flushPending_spec g2 key mem1 hl2
    have hbuf : g2.bufferedAt key = g.bufferedAt key := rfl
    obtain ⟨fl1, fl2, fl3, fl4⟩ := flushLoop_spec key (g2.bufferedAt key) mem1
    refine ⟨⟨(flushLoop key mem1 (g2.bufferedAt key)).1, f3, ?_, ?_⟩, ?_, ?_, ?_, ?_, ?_, ?_⟩
    · rw [fl3, hses1]
    · rw [fl4, hrc1]
    · simp only [deliveredOf]
      rw [f1, hbuf, hses1]
      exact deliveredOf_map_delivered _ _
    · rw [f2, hbuf, hses1]
    · simp
    · exact ⟨_, rfl⟩
    · exact f4
    · rw [f5]

theorem filter_not_filter {α : Type} (p : α → Bool) (l : List α) :
    (l.filter (fun a => !p a)).filter p = [] := by
  induction l with
  | nil => rfl
  | cons a rest ih => by_cases h : p a <;> simp [List.filter_cons, h, ih]

theorem handleDeviceMessage_immediate (g : GroupCall) (msg : SignallingMessage)
    (userId deviceId : String) (mem : MemberState)
    (hmem : lookupA g.gcMembers (userId, deviceId) = some mem)
    (hses : msg.senderSessionId = mem.sessionIdM) :
    (GroupCall.handleDeviceMessage g msg userId deviceId).2 =
      [GAction.delivered (userId, deviceId) msg] ∧
    (GroupCall.handleDeviceMessage g msg userId deviceId).1.bufferedDeviceMessages =
      g.bufferedDeviceMessages := by
  simp only [GroupCall.handleDeviceMessage]
  rw [hmem]
  simp [hses]

theorem handleDeviceMessage_buffer (g : GroupCall) (msg : SignallingMessage)
    (userId deviceId : String)
    (h : deliversNow g msg (userId, deviceId) = false) :
    (GroupCall.handleDeviceMessage g msg userId deviceId).2 =
      [GAction.bufferedMsg (userId, deviceId) msg] ∧
    (GroupCall.handleDeviceMessage g msg userId deviceId).1.bufferedAt (userId, deviceId) =
      pushSet (g.bufferedAt (userId, deviceId)) msg ∧
    (GroupCall.handleDeviceMessage g msg userId deviceId).1.gcMembers = g.gcMembers := by
  unfold deliversNow at h
  simp only [GroupCall.handleDeviceMessage]
  cases hm : lookupA g.gcMembers (userId, deviceId) with
  | none =>
    simp [GroupCall.bufferedAt, lookupA_bufSet_self]
  | some mem =>
    rw [hm] at h
    have hne : ¬ (msg.senderSessionId = mem.sessionIdM) := by simpa using h
    simp [hne, GroupCall.bufferedAt, lookupA_bufSet_self]

theorem updateMemberDevice_spec (g : GroupCall) (userId : String) (dev : DeviceEntry)
    (deviceIndex : Nat)
    (hown : ¬(userId = g.gopts.ownUserId ∧ dev.deviceIdD = g.gopts.ownDeviceId)) :
    (∃ mem', lookupA (GroupCall.updateMemberDevice g userId dev deviceIndex).1.gcMembers
        (userId, dev.deviceIdD) = some mem' ∧ mem'.sessionIdM = dev.sessionIdD) ∧
    deliveredOf (GroupCall.updateMemberDevice g userId dev deviceIndex).2 =
      ((g.bufferedAt (userId, dev.deviceIdD)).filter
        (fun msg => decide (msg.senderSessionId = dev.sessionIdD))).map
        (GAction.delivered (userId, dev.deviceIdD)) ∧
    (GroupCall.updateMemberDevice g userId dev deviceIndex).1.bufferedAt (userId, dev.deviceIdD) =
      (g.bufferedAt (userId, dev.deviceIdD)).filter
        (fun msg => !decide (msg.senderSessionId = dev.sessionIdD)) := by
  unfold GroupCall.updateMemberDevice
  simp only [if_neg hown]
  cases hm : lookupA g.gcMembers (userId, dev.deviceIdD) with
  | none =>
    obtain ⟨⟨mem', hl, hs, _⟩, hdel, hbuf, _, _, _, _⟩ := createMemberPath_spec g userId dev hm
    exact ⟨⟨mem', hl, hs⟩, hdel, hbuf⟩
  | some mem =>
    by_cases hses : mem.sessionIdM = dev.sessionIdD
    · simp only [if_pos hses]
      set key : MemberKey := (userId, dev.deviceIdD) with hkey
      set g1 : GroupCall :=
        { g with gcMembers := mapUpdate g.gcMembers key (Member.updateCallInfo mem dev) } with hg1
      have hl1 : lookupA g1.gcMembers key = some (Member.updateCallInfo mem dev) := by
        show lookupA (mapUpdate g.gcMembers key (Member.updateCallInfo mem dev)) key = _
        rw [lookupA_mapUpdate_self, hm]
        rfl
      obtain ⟨f1, f2, f3, _, _⟩ := flushPending_spec g1 key (Member.updateCallInfo mem dev) hl1
      have hbg : g1.bufferedAt key = g.bufferedAt key := rfl
      have hsesU : (Member.updateCallInfo mem dev).sessionIdM = dev.sessionIdD := rfl
      obtain ⟨_, _, fl3, _⟩ := flushLoop_spec key (g1.bufferedAt key) (Member.updateCallInfo mem dev)
      refine ⟨⟨(flushLoop key (Member.updateCallInfo mem dev) (g1.bufferedAt key)).1, f3, ?_⟩, ?_, ?_⟩
      · rw [fl3, hsesU]
      · simp only [deliveredOf]
        rw [f1, hbg, hsesU]
        exact deliveredOf_map_delivered _ _
      · rw [f2, hbg, hsesU]
    · simp only [if_neg hses]
      have hrm := lookupA_mapRemove_self g.gcMembers (userId, dev.deviceIdD)
      obtain ⟨⟨mem', hl, hs, _⟩, hdel, hbuf, _, _, _, _⟩ :=
        createMemberPath_spec
          { g with gcMembers := mapRemove g.gcMembers (userId, dev.deviceIdD) } userId dev hrm
      refine ⟨⟨mem', hl, hs⟩, ?_, hbuf⟩
      simp only [deliveredOf]
      exact hdel

theorem updateMemberDevice_second_flush (g : GroupCall) (userId : String) (dev : DeviceEntry)
    (deviceIndex : Nat)
    (hown : ¬(userId = g.gopts.ownUserId ∧ dev.deviceIdD = g.gopts.ownDeviceId)) :
    (GroupCall.flushPending (GroupCall.updateMemberDevice g userId dev deviceIndex).1
        (userId, dev.deviceIdD)).2 = [] := by
  obtain ⟨⟨mem', hl, hs⟩, _, hbuf⟩ := updateMemberDevice_spec g userId dev deviceIndex hown
  obtain ⟨s1, _, _, _, _⟩ :=
    flushPending_spec (GroupCall.updateMemberDevice g userId dev deviceIndex).1
      (userId, dev.deviceIdD) mem' hl
  rw [s1]
  simp only [hs]
  rw [hbuf, filter_not_filter]
  rfl

/-! ### C3 -/

/-- C3: an inbound to-device message is delivered to the Member
immediately iff a Member exists for the key with a matching
`sender_session_id` (and then the buffer is untouched); otherwise it is
appended to the per-key buffer and nothing is delivered; a flush over a
Member delivers exactly the buffered entries matching its session id,
in insertion order, and removes them from the buffer; and every
membership create/update for a non-own device ends with exactly that
flush, after which a further flush delivers nothing (each buffered
entry is delivered at most once). -/
theorem c3_theorem :
    (∀ (g : GroupCall) (msg : SignallingMessage) (userId deviceId : String) (mem : MemberState),
       lookupA g.gcMembers (userId, deviceId) = some mem →
       msg.senderSessionId = mem.sessionIdM →
       (GroupCall.handleDeviceMessage g msg userId deviceId).2 =
         [GAction.delivered (userId, deviceId) msg] ∧
       (GroupCall.handleDeviceMessage g msg userId deviceId).1.bufferedDeviceMessages =
         g.bufferedDeviceMessages) ∧
    (∀ (g : GroupCall) (msg : SignallingMessage) (userId deviceId : String),
       deliversNow g msg (userId, deviceId) = false →
       deliveredOf (GroupCall.handleDeviceMessage g msg userId deviceId).2 = [] ∧
       (GroupCall.handleDeviceMessage g msg userId deviceId).1.bufferedAt (userId, deviceId) =
         pushSet (g.bufferedAt (userId, deviceId)) msg) ∧
    (∀ (g : GroupCall) (key : MemberKey) (mem : MemberState),
       lookupA g.gcMembers key = some mem →
       (GroupCall.flushPending g key).2 =
         ((g.bufferedAt key).filter (fun msg => decide (msg.senderSessionId = mem.sessionIdM))).map
           (GAction.delivered key) ∧
       (GroupCall.flushPending g key).1.bufferedAt key =
         (g.bufferedAt key).filter (fun msg => !decide (msg.senderSessionId = mem.sessionIdM))) ∧
    (∀ (g : GroupCall) (userId : String) (dev : DeviceEntry) (deviceIndex : Nat),
       ¬(userId = g.gopts.ownUserId ∧ dev.deviceIdD = g.gopts.ownDeviceId) →
       (∃ mem', lookupA (GroupCall.updateMemberDevice g userId dev deviceIndex).1.gcMembers
           (userId, dev.deviceIdD) = some mem' ∧ mem'.sessionIdM = dev.sessionIdD) ∧
       deliveredOf (GroupCall.updateMemberDevice g userId dev deviceIndex).2 =
         ((g.bufferedAt (userId, dev.deviceIdD)).filter
           (fun msg => decide (msg.senderSessionId = dev.sessionIdD))).map
           (GAction.delivered (userId, dev.deviceIdD)) ∧
       (GroupCall.updateMemberDevice g userId dev deviceIndex).1.bufferedAt
           (userId, dev.deviceIdD) =
         (g.bufferedAt (userId, dev.deviceIdD)).filter
           (fun msg => !decide (msg.senderSessionId = dev.sessionIdD)) ∧
       (GroupCall.flushPending (GroupCall.updateMemberDevice g userId dev deviceIndex).1
           (userId, dev.deviceIdD)).2 = []) := by
  refine ⟨?_, ?_, ?_, ?_⟩
  · intro g msg userId deviceId mem hmem hses
    exact handleDeviceMessage_immediate g msg userId deviceId mem hmem hses
  · intro g msg userId deviceId h
    obtain ⟨h1, h2, _⟩ := handleDeviceMessage_buffer g msg userId deviceId h
    refine ⟨?_, h2⟩
    rw [h1]
    rfl
  · intro g key mem hmem
    obtain ⟨f1, f2, _, _, _⟩ := flushPending_spec g key mem hmem
    exact ⟨f1, f2⟩
  · intro g userId dev deviceIndex hown
    obtain ⟨h1, h2, h3⟩ := updateMemberDevice_spec g userId dev deviceIndex hown
    exact ⟨h1, h2, h3, updateMemberDevice_second_flush g userId dev deviceIndex hown⟩

/-- C3 witness: the buffered Invite tagged S2 in `gEx5` is delivered
in order when the membership update installs session S2. -/
theorem c3_witness :
    (¬("@u:hs" = gEx5.gopts.ownUserId ∧ devS2.deviceIdD = gEx5.gopts.ownDeviceId)) ∧
    deliveredOf (GroupCall.updateMemberDevice gEx5 "@u:hs" devS2 0).2 =
      ((gEx5.bufferedAt ("@u:hs", "UDEV")).filter
        (fun msg => decide (msg.senderSessionId = devS2.sessionIdD))).map
        (GAction.delivered ("@u:hs", "UDEV")) :=
  ⟨by decide, (c3_theorem.2.2.2 gEx5 "@u:hs" devS2 0 (by decide)).2.1⟩

/-! ### C4 -/

set_option maxRecDepth 4000 in
/-- C4 counterexample: after 65 undeliverable messages for one key the
buffer holds 65 entries — there is no cap at 64 and nothing is ever
dropped. -/
theorem c4_counterexample :
    (GroupCall.bufferedAt g4Full ("@u:hs", "UDEV")).length = 65 := by decide

/-- C4 (amended): the per-key buffer is unbounded — an arriving message
that cannot be delivered is appended to the buffer (unless the very
same entry is already present), and no buffered entry is ever dropped,
so the buffer length never decreases. -/
theorem c4_theorem (g : GroupCall) (msg : SignallingMessage) (userId deviceId : String)
    (h : deliversNow g msg (userId, deviceId) = false) :
    (GroupCall.handleDeviceMessage g msg userId deviceId).1.bufferedAt (userId, deviceId) =
      pushSet (g.bufferedAt (userId, deviceId)) msg ∧
    (g.bufferedAt (userId, deviceId)).length ≤
      ((GroupCall.handleDeviceMessage g msg userId deviceId).1.bufferedAt
        (userId, deviceId)).length := by
  obtain ⟨_, h2, _⟩ := handleDeviceMessage_buffer g msg userId deviceId h
  refine ⟨h2, ?_⟩
  rw [h2]
  unfold pushSet
  by_cases hc : msg ∈ g.bufferedAt (userId, deviceId)
  · simp [hc]
  · simp [hc]

/-- C4 witness: a first undeliverable message lands in the buffer of
the fresh conference. -/
theorem c4_witness :
    deliversNow gEx0 (msg65 0) ("@u:hs", "UDEV") = false ∧
    (GroupCall.handleDeviceMessage gEx0 (msg65 0) "@u:hs" "UDEV").1.bufferedAt ("@u:hs", "UDEV") =
      pushSet (gEx0.bufferedAt ("@u:hs", "UDEV")) (msg65 0) :=
  ⟨by decide, (c4_theorem gEx0 (msg65 0) "@u:hs" "UDEV" (by decide)).1⟩

/-! ### C5 -/

/-- C5: a membership device entry whose session id differs from the
stored Member's session id disconnects and removes the old Member
before creating and adding the replacement; the replacement carries the
new session id and retry count 0, and `connect` is invoked on it iff
the GroupCall has joined (given that `joinedData` tracks `hasJoined`). -/
theorem c5_theorem (g : GroupCall) (userId : String) (dev : DeviceEntry) (deviceIndex : Nat)
    (mem : MemberState)
    (hown : ¬(userId = g.gopts.ownUserId ∧ dev.deviceIdD = g.gopts.ownDeviceId))
    (hmem : lookupA g.gcMembers (userId, dev.deviceIdD) = some mem)
    (hdiff : ¬ mem.sessionIdM = dev.sessionIdD)
    (hcouple : g.joinedData.isSome = GroupCall.hasJoined g) :
    (∃ rest, (GroupCall.updateMemberDevice g userId dev deviceIndex).2 =
       GAction.memberDisconnected (userId, dev.deviceIdD) false ::
       GAction.memberRemoved (userId, dev.deviceIdD) ::
       GAction.memberAdded (userId, dev.deviceIdD) :: rest) ∧
    (∃ mem', lookupA (GroupCall.updateMemberDevice g userId dev deviceIndex).1.gcMembers
        (userId, dev.deviceIdD) = some mem' ∧
        mem'.sessionIdM = dev.sessionIdD ∧ mem'.retryCount = 0) ∧
    (GAction.connectInvoked (userId, dev.deviceIdD) ∈
        (GroupCall.updateMemberDevice g userId dev deviceIndex).2 ↔
      GroupCall.hasJoined g = true) := by
  have hrm := lookupA_mapRemove_self g.gcMembers (userId, dev.deviceIdD)
  obtain ⟨⟨mem', hl, hs, hrc⟩, _, _, hconn, ⟨rest, hacts⟩, _, _⟩ :=
    createMemberPath_spec
      { g with gcMembers := mapRemove g.gcMembers (userId, dev.deviceIdD) } userId dev hrm
  have hresult : GroupCall.updateMemberDevice g userId dev deviceIndex =
      ((GroupCall.createMemberPath
          { g with gcMembers := mapRemove g.gcMembers (userId, dev.deviceIdD) } userId dev).1,
       GAction.memberDisconnected (userId, dev.deviceIdD) false ::
       GAction.memberRemoved (userId, dev.deviceIdD) ::
       (GroupCall.createMemberPath
          { g with gcMembers := mapRemove g.gcMembers (userId, dev.deviceIdD) } userId dev).2) := by
    simp only [GroupCall.updateMemberDevice]
    rw [if_neg hown, hmem]
    simp only [if_neg hdiff]
  have hj2 : ({ g with gcMembers := mapRemove g.gcMembers (userId, dev.deviceIdD) } :
      GroupCall).joinedData = g.joinedData := rfl
  rw [hj2, hcouple] at hconn
  refine ⟨?_, ?_, ?_⟩
  · refine ⟨rest, ?_⟩
    rw [hresult]
    show GAction.memberDisconnected (userId, dev.deviceIdD) false :: _ :: _ = _
    rw [hacts]
  · rw [hresult]
    exact ⟨mem', hl, hs, hrc⟩
  · rw [hresult]
    constructor
    · intro hx
      rcases List.mem_cons.mp hx with hx1 | hx
      · exact absurd hx1 (by simp)
      · rcases List.mem_cons.mp hx with hx2 | hx
        · exact absurd hx2 (by simp)
        · exact hconn.mp hx
    · intro hx
      exact List.mem_cons_of_mem _ (List.mem_cons_of_mem _ (hconn.mpr hx))

/-- C5 witness: the concrete session rotation S1 to S2 in `gEx5`
replaces the Member with a fresh one carrying S2 and retry count 0. -/
theorem c5_witness :
    (¬("@u:hs" = gEx5.gopts.ownUserId ∧ devS2.deviceIdD = gEx5.gopts.ownDeviceId)) ∧
    (¬ memEx5.sessionIdM = devS2.sessionIdD) ∧
    gEx5.joinedData.isSome = GroupCall.hasJoined gEx5 ∧
    (∃ mem', lookupA (GroupCall.updateMemberDevice gEx5 "@u:hs" devS2 0).1.gcMembers
        ("@u:hs", "UDEV") = some mem' ∧
        mem'.sessionIdM = devS2.sessionIdD ∧ mem'.retryCount = 0) :=
  ⟨by decide, by decide, by decide,
   (c5_theorem gEx5 "@u:hs" devS2 0 memEx5 (by decide) (by decide) (by decide) (by decide)).2.1⟩

/-! ### Lemmas for leave and the joined-state invariant -/

theorem count_zero_absent (did : String) : ∀ l : List DeviceEntry,
    countDevice l did = 0 → devicePresent l did = false := by
  intro l
  induction l with
  | nil => intro _; rfl
  | cons d rest ih =>
    intro h
    by_cases hd : d.deviceIdD = did
    · exfalso
      unfold countDevice at h
      simp [List.filter_cons, hd] at h
    · unfold countDevice at h
      rw [List.filter_cons] at h
      simp only [hd, decide_False] at h
      unfold devicePresent
      simp only [List.any_cons, hd, decide_False, Bool.false_or]
      exact ih h

theorem devicePresent_removeFirst (did : String) : ∀ l : List DeviceEntry,
    countDevice l did ≤ 1 → devicePresent (removeFirstDevice l did) did = false := by
  intro l
  induction l with
  | nil => intro _; rfl
  | cons d rest ih =>
    intro h
    by_cases hd : d.deviceIdD = did
    · unfold removeFirstDevice
      rw [if_pos hd]
      apply count_zero_absent
      unfold countDevice at h ⊢
      rw [List.filter_cons, if_pos (decide_eq_true hd), List.length_cons] at h
      omega
    · unfold removeFirstDevice
      rw [if_neg hd]
      unfold devicePresent
      simp only [List.any_cons, hd, decide_False, Bool.false_or]
      apply ih
      unfold countDevice at h ⊢
      rw [List.filter_cons] at h
      simp only [hd, decide_False] at h
      exact h

theorem disconnectAll_keys : ∀ ms : List (MemberKey × MemberState),
    (disconnectAll ms).1.map Prod.fst = ms.map Prod.fst := by
  intro ms
  induction ms with
  | nil => rfl
  | cons p rest ih =>
    obtain ⟨k, mem⟩ := p
    simp [disconnectAll, ih]

theorem disconnectAll_no_terminate : ∀ ms : List (MemberKey × MemberState),
    GAction.sentTerminated ∉ (disconnectAll ms).2 := by
  intro ms
  induction ms with
  | nil => simp [disconnectAll]
  | cons p rest ih =>
    obtain ⟨k, mem⟩ := p
    simp [disconnectAll, ih]

theorem disconnect_joinedData (g : GroupCall) :
    (GroupCall.disconnect g).1.joinedData = none := by
  unfold GroupCall.disconnect
  by_cases h : g.gcState = .joined <;> simp [h]

theorem disconnect_roomState (g : GroupCall) :
    (GroupCall.disconnect g).1.roomState = g.roomState := by
  unfold GroupCall.disconnect
  by_cases h : g.gcState = .joined <;> simp [h]

theorem disconnect_callContent (g : GroupCall) :
    (GroupCall.disconnect g).1.callContent = g.callContent := by
  unfold GroupCall.disconnect
  by_cases h : g.gcState = .joined <;> simp [h]

theorem disconnect_gcState (g : GroupCall) :
    (GroupCall.disconnect g).1.gcState = if g.gcState = .joined then .created else g.gcState := by
  unfold GroupCall.disconnect
  by_cases h : g.gcState = .joined <;> simp [h]

theorem disconnect_members_keys (g : GroupCall) :
    (GroupCall.disconnect g).1.gcMembers.map Prod.fst = g.gcMembers.map Prod.fst := by
  unfold GroupCall.disconnect
  by_cases h : g.gcState = .joined <;> simp [h, disconnectAll_keys]

theorem disconnect_no_terminate (g : GroupCall) :
    GAction.sentTerminated ∉ (GroupCall.disconnect g).2 := by
  unfold GroupCall.disconnect
  by_cases h : g.gcState = .joined <;> simp [h, disconnectAll_no_terminate]

theorem terminate_spec (g : GroupCall) (h : g.gcState ≠ .fledgling) :
    GroupCall.terminate g =
      ({ g with callContent := { g.callContent with terminated := true } },
       [GAction.sentTerminated]) := by
  unfold GroupCall.terminate
  rw [if_neg h]

/-! ### C6 -/

/-- C6: `leave()` on a joined GroupCall (own device present once in the
member state event) removes the own device from that event, and sends
the conference state event with `m.terminated: true` iff the intent is
Ring and no other Members remain; with no members the members map stays
empty. -/
theorem c6_theorem (g : GroupCall)
    (hj : g.joinedData.isSome = true)
    (hpres : devicePresent g.roomState g.gopts.ownDeviceId = true)
    (hone : countDevice g.roomState g.gopts.ownDeviceId ≤ 1)
    (hnf : g.gcState ≠ .fledgling) :
    devicePresent (GroupCall.leave g).1.roomState g.gopts.ownDeviceId = false ∧
    (GAction.sentTerminated ∈ (GroupCall.leave g).2 ↔
      (g.callContent.intent = .ring ∧ g.gcMembers.length = 0)) ∧
    ((GroupCall.leave g).1.callContent.terminated =
      (g.callContent.terminated ||
        decide (g.callContent.intent = .ring ∧ g.gcMembers.length = 0))) ∧
    (g.gcMembers = [] → (GroupCall.leave g).1.gcMembers = []) := by
  cases hjm : g.joinedData with
  | none =>
    rw [hjm] at hj
    simp at hj
  | some media =>
    have hpres' : (g.roomState.any fun d => decide (d.deviceIdD = g.gopts.ownDeviceId)) = true := by
      unfold devicePresent at hpres
      exact hpres
    have hlc : leaveCallMemberContent g.roomState g.gopts =
        some (removeFirstDevice g.roomState g.gopts.ownDeviceId) := by
      unfold leaveCallMemberContent
      rw [if_pos hpres']
    by_cases hc : g.callContent.intent = .ring ∧ g.gcMembers.length = 0
    · set gT : GroupCall :=
        { g with callContent := { g.callContent with terminated := true },
                 joinedData := some media,
                 roomState := removeFirstDevice g.roomState g.gopts.ownDeviceId } with hgT
      have hres : GroupCall.leave g =
          ((GroupCall.disconnect gT).1,
           GAction.sentMemberState ::
             ([GAction.sentTerminated] ++ (GroupCall.disconnect gT).2)) := by
        rw [hgT]
        simp only [GroupCall.leave]
        rw [hjm]
        simp only [hlc]
        rw [if_pos hc]
        rw [terminate_spec
          { g with joinedData := some media,
                   roomState := removeFirstDevice g.roomState g.gopts.ownDeviceId } hnf]
      refine ⟨?_, ?_, ?_, ?_⟩
      · rw [hres, disconnect_roomState]
        exact devicePresent_removeFirst _ _ hone
      · refine ⟨fun _ => hc, fun _ => ?_⟩
        rw [hres]
        exact List.mem_cons_of_mem _ (List.mem_append_left _ (List.mem_singleton_self _))
      · rw [hres, disconnect_callContent]
        simp [hgT, hc]
      · intro hm
        rw [hres]
        have hk : (GroupCall.disconnect gT).1.gcMembers.map Prod.fst =
            g.gcMembers.map Prod.fst := disconnect_members_keys gT
        rw [hm] at hk
        simp only [List.map_nil] at hk
        exact List.map_eq_nil_iff.mp hk
    · set gN : GroupCall :=
        { g with joinedData := some media,
                 roomState := removeFirstDevice g.roomState g.gopts.ownDeviceId } with hgN
      have hres : GroupCall.leave g =
          ((GroupCall.disconnect gN).1,
           GAction.sentMemberState :: ([] ++ (GroupCall.disconnect gN).2)) := by
        rw [hgN]
        simp only [GroupCall.leave]
        rw [hjm]
        simp only [hlc]
        rw [if_neg hc]
      refine ⟨?_, ?_, ?_, ?_⟩
      · rw [hres, disconnect_roomState]
        exact devicePresent_removeFirst _ _ hone
      · constructor
        · intro hx
          rw [hres] at hx
          exfalso
          rcases List.mem_cons.mp hx with hx1 | hx
          · exact absurd hx1 (by simp)
          · rw [List.nil_append] at hx
            exact disconnect_no_terminate _ hx
        · intro hx
          exact absurd hx hc
      · rw [hres, disconnect_callContent, decide_eq_false hc, Bool.or_false]
      · intro hm
        rw [hres]
        have hk : (GroupCall.disconnect gN).1.gcMembers.map Prod.fst =
            g.gcMembers.map Prod.fst := disconnect_members_keys gN
        rw [hm] at hk
        simp only [List.map_nil] at hk
        exact List.map_eq_nil_iff.mp hk

/-- C6 witness: the `join ; leave` cycle on the fresh Ring conference
with no remote participants ends terminated with an empty members
map, the own device removed from the member state event. -/
theorem c6_witness :
    gEx1.joinedData.isSome = true ∧
    devicePresent gEx1.roomState gEx1.gopts.ownDeviceId = true ∧
    countDevice gEx1.roomState gEx1.gopts.ownDeviceId ≤ 1 ∧
    gEx1.gcState ≠ GCState.fledgling ∧
    (GroupCall.leave gEx1).1.callContent.terminated = true ∧
    (GroupCall.leave gEx1).1.gcMembers = [] ∧
    devicePresent (GroupCall.leave gEx1).1.roomState gEx1.gopts.ownDeviceId = false := by
  have h := c6_theorem gEx1 (by decide) (by decide) (by decide) (by decide)
  refine ⟨by decide, by decide, by decide, by decide, ?_, h.2.2.2 (by decide), h.1⟩
  rw [h.2.2.1]
  decide

/-! ### State-preservation lemmas for the joined invariant -/

theorem flushPending_state (g : GroupCall) (key : MemberKey) :
    (GroupCall.flushPending g key).1.gcState = g.gcState ∧
    (GroupCall.flushPending g key).1.joinedData = g.joinedData := by
  unfold GroupCall.flushPending
  cases h : lookupA g.gcMembers key <;> simp [h]

theorem handleDeviceMessage_state (g : GroupCall) (msg : SignallingMessage)
    (userId deviceId : String) :
    (GroupCall.handleDeviceMessage g msg userId deviceId).1.gcState = g.gcState ∧
    (GroupCall.handleDeviceMessage g msg userId deviceId).1.joinedData = g.joinedData := by
  simp only [GroupCall.handleDeviceMessage]
  cases h : lookupA g.gcMembers (userId, deviceId) with
  | none => simp
  | some mem => by_cases hs : msg.senderSessionId = mem.sessionIdM <;> simp [hs]

theorem createMemberPath_state (g : GroupCall) (userId : String) (dev : DeviceEntry) :
    (GroupCall.createMemberPath g userId dev).1.gcState = g.gcState ∧
    (GroupCall.createMemberPath g userId dev).1.joinedData = g.joinedData := by
  unfold GroupCall.createMemberPath
  cases hj : g.joinedData with
  | none =>
    exact ⟨(flushPending_state _ _).1, (flushPending_state _ _).2⟩
  | some media =>
    exact ⟨(flushPending_state _ _).1, (flushPending_state _ _).2⟩

theorem updateMemberDevice_state (g : GroupCall) (userId : String) (dev : DeviceEntry)
    (deviceIndex : Nat) :
    (GroupCall.updateMemberDevice g userId dev deviceIndex).1.joinedData = g.joinedData ∧
    ((GroupCall.updateMemberDevice g userId dev deviceIndex).1.gcState = g.gcState ∨
     (GroupCall.updateMemberDevice g userId dev deviceIndex).1.gcState = .joined) := by
  unfold GroupCall.updateMemberDevice
  by_cases hown : userId = g.gopts.ownUserId ∧ dev.deviceIdD = g.gopts.ownDeviceId
  · simp only [if_pos hown]
    by_cases hjn : ({ g with deviceIndex := some deviceIndex } : GroupCall).gcState = .joining
    · rw [if_pos hjn]
      exact ⟨rfl, Or.inr rfl⟩
    · rw [if_neg hjn]
      exact ⟨rfl, Or.inl rfl⟩
  · simp only [if_neg hown]
    cases hm : lookupA g.gcMembers (userId, dev.deviceIdD) with
    | none =>
      exact ⟨(createMemberPath_state _ _ _).2, Or.inl (createMemberPath_state _ _ _).1⟩
    | some mem =>
      by_cases hs : mem.sessionIdM = dev.sessionIdD
      · simp only [if_pos hs]
        exact ⟨(flushPending_state _ _).2, Or.inl (flushPending_state _ _).1⟩
      · simp only [if_neg hs]
        exact ⟨(createMemberPath_state _ _ _).2, Or.inl (createMemberPath_state _ _ _).1⟩

theorem removeMemberDevice_state (g : GroupCall) (userId deviceId : String) :
    (GroupCall.removeMemberDevice g userId deviceId).1.gcState = g.gcState ∧
    (GroupCall.removeMemberDevice g userId deviceId).1.joinedData = g.joinedData := by
  unfold GroupCall.removeMemberDevice
  cases h : lookupA g.gcMembers (userId, deviceId) <;> simp [h]

theorem leave_joinedData (g : GroupCall) : (GroupCall.leave g).1.joinedData = none := by
  unfold GroupCall.leave
  cases hj : g.joinedData with
  | none => exact hj
  | some media =>
    cases hlc : leaveCallMemberContent g.roomState g.gopts with
    | none => exact disconnect_joinedData g
    | some devices' => exact disconnect_joinedData _

theorem mediaInv_of_none (g : GroupCall) (h : g.joinedData = none) : mediaImpliesJoined g := by
  intro hsome
  rw [h] at hsome
  simp at hsome

theorem mediaInv_of_preserve (g g' : GroupCall)
    (hj : g'.joinedData = g.joinedData) (hs : g'.gcState = g.gcState)
    (hinv : mediaImpliesJoined g) : mediaImpliesJoined g' := by
  intro hsome
  rw [hj] at hsome
  have h2 := hinv hsome
  unfold GroupCall.hasJoined at h2 ⊢
  rw [hs]
  exact h2

theorem mediaInv_of_joined (g' : GroupCall)
    (h : g'.gcState = .joining ∨ g'.gcState = .joined) : mediaImpliesJoined g' := by
  intro _
  unfold GroupCall.hasJoined
  rcases h with h | h <;> simp [h]

/-! ### C7 -/

/-- C7 counterexample: after `join` the call is Joining with media;
`leave()` (which runs `disconnect`) resets the state only from Joined,
so the call stays in Joining — `hasJoined` is still true — while the
local media is gone, refuting "local media is non-null iff hasJoined"
in a reachable state. -/
theorem c7_counterexample :
    GroupCall.hasJoined (GroupCall.leave gEx1).1 = true ∧
    GroupCall.localMedia (GroupCall.leave gEx1).1 = none := by decide

/-- C7 (amended): `hasJoined` holds iff the state is Joining or Joined
(by definition), and every operation preserves the one-directional
invariant "non-null local media implies hasJoined"; the converse
direction fails (see the counterexample: leave/disconnect while Joining
keeps the state Joining with the media gone). -/
theorem c7_theorem :
    (∀ g : GroupCall, GroupCall.hasJoined g = true ↔
       (g.gcState = .joining ∨ g.gcState = .joined)) ∧
    (∀ (g : GroupCall) (op : GOp),
       mediaImpliesJoined g → mediaImpliesJoined (applyG g op)) := by
  constructor
  · intro g
    unfold GroupCall.hasJoined
    simp
  · intro g op hinv
    cases op with
    | createOp =>
      by_cases h : g.gcState ≠ .fledgling
      · show mediaImpliesJoined (GroupCall.create g).1
        unfold GroupCall.create
        rw [if_pos h]
        exact hinv
      · push_neg at h
        have hnone : g.joinedData = none := by
          cases hcase : g.joinedData with
          | none => rfl
          | some m =>
            have h2 := hinv (by rw [hcase]; rfl)
            unfold GroupCall.hasJoined at h2
            rw [h] at h2
            simp at h2
        show mediaImpliesJoined (GroupCall.create g).1
        unfold GroupCall.create
        rw [if_neg (by simp [h])]
        exact mediaInv_of_none _ hnone
    | joinOp media =>
      by_cases h : g.gcState ≠ .created ∨ g.joinedData.isSome
      · show mediaImpliesJoined (GroupCall.join g media).1
        unfold GroupCall.join
        rw [if_pos h]
        exact hinv
      · show mediaImpliesJoined (GroupCall.join g media).1
        unfold GroupCall.join
        rw [if_neg h]
        exact mediaInv_of_joined _ (Or.inl rfl)
    | setMediaOp media =>
      by_cases h : (g.gcState = .joining ∨ g.gcState = .joined) ∧ g.joinedData.isSome
      · show mediaImpliesJoined (GroupCall.setMedia g media).1
        unfold GroupCall.setMedia
        rw [if_pos h]
        exact mediaInv_of_joined _ h.1
      · show mediaImpliesJoined (GroupCall.setMedia g media).1
        unfold GroupCall.setMedia
        rw [if_neg h]
        exact hinv
    | leaveOp =>
      exact mediaInv_of_none _ (leave_joinedData g)
    | disconnectOp =>
      exact mediaInv_of_none _ (disconnect_joinedData g)
    | terminateOp =>
      by_cases h : g.gcState = .fledgling
      · show mediaImpliesJoined (GroupCall.terminate g).1
        unfold GroupCall.terminate
        rw [if_pos h]
        exact hinv
      · show mediaImpliesJoined (GroupCall.terminate g).1
        unfold GroupCall.terminate
        rw [if_neg h]
        exact mediaInv_of_preserve g _ rfl rfl hinv
    | updateEventOp content =>
      by_cases h : g.gcState = .creating
      · have hnone : g.joinedData = none := by
          cases hcase : g.joinedData with
          | none => rfl
          | some m =>
            have h2 := hinv (by rw [hcase]; rfl)
            unfold GroupCall.hasJoined at h2
            rw [h] at h2
            simp at h2
        show mediaImpliesJoined (GroupCall.updateCallEvent g content)
        unfold GroupCall.updateCallEvent
        rw [if_pos h]
        exact mediaInv_of_none _ hnone
      · show mediaImpliesJoined (GroupCall.updateCallEvent g content)
        unfold GroupCall.updateCallEvent
        rw [if_neg h]
        exact mediaInv_of_preserve g _ rfl rfl hinv
    | handleMsgOp msg userId deviceId =>
      obtain ⟨h1, h2⟩ := handleDeviceMessage_state g msg userId deviceId
      exact mediaInv_of_preserve g _ h2 h1 hinv
    | updateDeviceOp userId dev deviceIndex =>
      obtain ⟨h1, h2⟩ := updateMemberDevice_state g userId dev deviceIndex
      rcases h2 with h2 | h2
      · exact mediaInv_of_preserve g _ h1 h2 hinv
      · exact mediaInv_of_joined _ (Or.inr h2)
    | removeDeviceOp userId deviceId =>
      obtain ⟨h1, h2⟩ := removeMemberDevice_state g userId deviceId
      exact mediaInv_of_preserve g _ h2 h1 hinv
    | flushOp key =>
      obtain ⟨h1, h2⟩ := flushPending_state g key
      exact mediaInv_of_preserve g _ h2 h1 hinv

/-- C7 witness: the preservation half applied to the fresh conference
and a concrete `join`. -/
theorem c7_witness :
    mediaImpliesJoined gEx0 ∧ mediaImpliesJoined (applyG gEx0 (GOp.joinOp 7)) :=
  ⟨fun h => absurd h (by decide),
   c7_theorem.2 gEx0 (GOp.joinOp 7) (fun h => absurd h (by decide))⟩
